import Mathlib

/-!
Verification of the ai-vox-dashboard-backend sync / dashboard routines.

Shallow embedding of the relevant source files:
  - src/routes/dashboard.js  (POST /sync-calls, GET /call-history/:agentId)
  - src/lib/retell.js        (RetellAPI.getAllCallsInRange)
  - src/lib/superadmin.js    (ensureSuperAdmin)
  - src/middleware/auth.js   (authMiddleware)
  - src/middleware/errorHandler.js (errorHandler, error classes)

Stateful code is modelled by explicit state passing over a DB value; time
(new Date()) is modelled as a Nat tick incremented once per storage write;
fallible storage operations are modelled by failure oracles passed in as
functions; JavaScript truthiness on optional header strings is modelled
explicitly.
-/

namespace AiVox

/-- External call record as returned by the Retell API, restricted to the
fields read by the sync routine in dashboard.js. Optional JSON fields are
Option valued. -/
structure RetellCall where
  call_id : String
  agent_id : String
  start_timestamp : Int
  end_timestamp : Int
  duration_ms : Int
  caller_info : Option String := none
  transcript : Option String := none
  call_status : String := ""
  disconnection_reason : Option String := none
  combined_cost : Option Int := none
  call_summary : Option String := none
  user_sentiment : Option String := none
  call_successful : Option Bool := none
  recording_url : Option String := none
deriving DecidableEq, Repr

/-- Agent row of the persistent store (prisma.agent). -/
structure AgentRow where
  agent_id : String
  agent_name : String
  status : String
  created_at : Nat
  updated_at : Nat
deriving DecidableEq, Repr

/-- Call row of the persistent store (prisma.call), with the fields written
by the sync routine in dashboard.js lines 208 to 231. -/
structure CallRow where
  call_id : String
  agent_id : String
  caller_info : Option String
  start_timestamp : Int
  end_timestamp : Int
  duration_ms : Int
  duration_seconds : Int
  transcript : Option String
  call_status : String
  disconnection_reason : Option String
  cost : Int
  call_summary : Option String
  user_sentiment : Option String
  call_successful : Bool
  recording_url : Option String
  created_at : Nat
  updated_at : Nat
deriving DecidableEq, Repr

/-- The relational store: the two entities touched by the sync routine. -/
structure DB where
  agents : List AgentRow
  calls : List CallRow
deriving DecidableEq, Repr

/-- prisma.agent.findUnique on the unique key agent_id. -/
def findAgent (db : DB) (id : String) : Option AgentRow :=
  db.agents.find? (fun a => decide (a.agent_id = id))

/-- prisma.call.findUnique on the unique key call_id. -/
def findCall (db : DB) (id : String) : Option CallRow :=
  db.calls.find? (fun c => decide (c.call_id = id))

/-- Field mapping of dashboard.js lines 205 to 224: the callData object built
from a Retell record. duration_seconds is Math.floor of duration_ms over
1000 (Int.fdiv matches Math.floor on negatives); cost defaults the missing
combined_cost to 0; call_successful defaults to false. created and updated
are the storage timestamps chosen by the upsert. -/
def mapCallFields (r : RetellCall) (created updated : Nat) : CallRow :=
  { call_id := r.call_id
    agent_id := r.agent_id
    caller_info := r.caller_info
    start_timestamp := r.start_timestamp
    end_timestamp := r.end_timestamp
    duration_ms := r.duration_ms
    duration_seconds := Int.fdiv r.duration_ms 1000
    transcript := r.transcript
    call_status := r.call_status
    disconnection_reason := r.disconnection_reason
    cost := r.combined_cost.getD 0
    call_summary := r.call_summary
    user_sentiment := r.user_sentiment
    call_successful := r.call_successful.getD false
    recording_url := r.recording_url
    created_at := created
    updated_at := updated }

/-- prisma.agent.upsert of dashboard.js lines 181 to 192: update agent_name
and updated_at when the agent exists, otherwise create it with status
ACTIVE and both timestamps set to the current tick. -/
def upsertAgent (db : DB) (now : Nat) (id nm : String) : DB :=
  match findAgent db id with
  | some _ =>
      { db with agents := db.agents.map (fun a =>
          if a.agent_id = id then { a with agent_name := nm, updated_at := now } else a) }
  | none =>
      { db with agents := db.agents ++
          [{ agent_id := id, agent_name := nm, status := "ACTIVE",
             created_at := now, updated_at := now }] }

/-- Response body of POST /sync-calls. callsUpdated and errors are Option
valued because the zero-records early return at dashboard.js lines 145 to
155 emits a body without those keys. -/
structure SyncResponse where
  success : Bool
  message : String
  callsSynced : Nat
  callsUpdated : Option Nat
  errors : Option Nat
deriving DecidableEq, Repr

/-- State threaded through the per-call loop of the sync routine: the store,
the clock tick, the three counters, and (as a pure observation used to state
the invariants) the list of Call rows actually written. -/
structure SyncState where
  db : DB
  now : Nat
  synced : Nat
  updated : Nat
  errs : Nat
  written : List CallRow
deriving DecidableEq, Repr

/-- Failure condition of one Call write. The write can fail for a record
either because the storage layer throws on it (oracle cf) or because the
Call to Agent foreign key is violated.

Modelled from the spec: the foreign key check comes from the prisma schema
(prisma/schema.prisma), which is not among the provided source files; spec
section 3 states that every Call has an owning Agent identifier as a foreign
reference that must correspond to an existing Agent, so a Call write whose
agent is absent fails and is caught by the per-record catch block. -/
def callFails (cf : RetellCall → Bool) (db : DB) (r : RetellCall) : Bool :=
  cf r || (findAgent db r.agent_id).isNone

/-- Body of the per-call loop, dashboard.js lines 202 to 245. A failed
record increments the error counter; a successful upsert updates in place
keeping created_at (or appends a fresh row with both timestamps equal to
the tick), and is classified as synced when the resulting created_at equals
its updated_at, else as updated, exactly as lines 233 to 237 do. -/
def processCall (cf : RetellCall → Bool) (s : SyncState) (r : RetellCall) : SyncState :=
  if callFails cf s.db r then
    { s with errs := s.errs + 1, now := s.now + 1 }
  else
    match findCall s.db r.call_id with
    | some old =>
        let row := mapCallFields r old.created_at s.now
        { db := { s.db with calls := s.db.calls.map (fun c =>
              if c.call_id = r.call_id then row else c) }
          now := s.now + 1
          synced := if row.created_at = row.updated_at then s.synced + 1 else s.synced
          updated := if row.created_at = row.updated_at then s.updated else s.updated + 1
          errs := s.errs
          written := s.written ++ [row] }
    | none =>
        let row := mapCallFields r s.now s.now
        { db := { s.db with calls := s.db.calls ++ [row] }
          now := s.now + 1
          synced := if row.created_at = row.updated_at then s.synced + 1 else s.synced
          updated := if row.created_at = row.updated_at then s.updated else s.updated + 1
          errs := s.errs
          written := s.written ++ [row] }

/-- The per-call loop over the filtered records. -/
def callPhase (cf : RetellCall → Bool) (l : List RetellCall) (s : SyncState) : SyncState :=
  l.foldl (processCall cf) s

/-- Body of the per-agent loop, dashboard.js lines 174 to 199: a failing
upsert (oracle af) is caught and logged, leaving the store unchanged;
otherwise the agent is upserted under the name from the fetched agent map,
defaulting to the Agent prefix plus the identifier. -/
def agentStep (af : String → Bool) (am : String → Option String)
    (p : DB × Nat) (id : String) : DB × Nat :=
  if af id then (p.1, p.2 + 1)
  else (upsertAgent p.1 p.2 id ((am id).getD ("Agent " ++ id)), p.2 + 1)

/-- The per-agent loop over the distinct agent identifiers. -/
def agentPhase (af : String → Bool) (am : String → Option String)
    (ids : List String) (p : DB × Nat) : DB × Nat :=
  ids.foldl (agentStep af am) p

/-- JavaScript spread of a Set built from a list: first occurrences in
order, as in dashboard.js lines 167 to 169. -/
def dedupFirst (l : List String) : List String :=
  l.foldl (fun acc x => if x ∈ acc then acc else acc ++ [x]) []

/-- Optional agentId filter of dashboard.js lines 158 to 160. -/
def filterByAgent : Option String → List RetellCall → List RetellCall
  | none, l => l
  | some aid, l => l.filter (fun c => decide (c.agent_id = aid))

/-- Result of one invocation of the sync routine: the final store, the JSON
response body, and (as an observation) the Call rows written. -/
structure SyncOutcome where
  db : DB
  response : SyncResponse
  written : List CallRow
deriving DecidableEq, Repr

/-- POST /sync-calls, dashboard.js lines 91 to 274, given the outcome of the
two external fetches: am is the fetched agent name map (empty map when the
agent fetch failed), calls is the list returned by getAllCallsInRange, af
and cf are the storage failure oracles, agentIdFilter the optional request
filter, db and now the incoming store and clock. Zero fetched records
trigger the early return of lines 145 to 155; otherwise the agent loop runs
to completion before the call loop starts. -/
def syncCalls (am : String → Option String) (af : String → Bool)
    (cf : RetellCall → Bool) (agentIdFilter : Option String)
    (calls : List RetellCall) (db : DB) (now : Nat) : SyncOutcome :=
  if calls.isEmpty then
    { db := db
      response := { success := true
                    message := "No calls found in the specified date range"
                    callsSynced := 0, callsUpdated := none, errors := none }
      written := [] }
  else
    let filteredCalls := filterByAgent agentIdFilter calls
    let uniqueAgentIds := dedupFirst (filteredCalls.map (fun c => c.agent_id))
    let p := agentPhase af am uniqueAgentIds (db, now)
    let s := callPhase cf filteredCalls
      { db := p.1, now := p.2, synced := 0, updated := 0, errs := 0, written := [] }
    { db := s.db
      response := { success := true
                    message := "Call sync completed"
                    callsSynced := s.synced, callsUpdated := some s.updated
                    errors := some s.errs }
      written := s.written }

/-- Cursor threaded between pages in retell.js line 139: the call_id of the
last record of the page just fetched. -/
def nextCursor (page : List RetellCall) : Option String :=
  match page.getLast? with
  | some r => some r.call_id
  | none => none

/-- RetellAPI.getAllCallsInRange, retell.js lines 96 to 167, over an
abstract single-page fetch (cursor to page of records). The loop keeps
going while the page length equals the limit and is positive (line 137),
threading the last call_id as the next cursor; fuel bounds the number of
page fetches and none is returned when it runs out before the loop exits. -/
def getAllCallsInRange (fetch : Option String → List RetellCall) (limit : Nat) :
    Option String → Nat → Option (List RetellCall)
  | _, 0 => none
  | cursor, fuel + 1 =>
      let page := fetch cursor
      if page.length = limit ∧ 0 < page.length then
        match getAllCallsInRange fetch limit (nextCursor page) fuel with
        | some rest => some (page ++ rest)
        | none => none
      else
        some page

/-- Trace of a completed drain, as the claim describes it: a sequence of
pages in which every page is the fetch of the cursor threaded from the
previous page (the call_id of its last record), every non final page has
exactly limit records, and the final page, and only it, is shorter than the
limit. -/
inductive DrainTrace (fetch : Option String → List RetellCall) (limit : Nat) :
    Option String → List (List RetellCall) → Prop
  | final (cursor : Option String) (page : List RetellCall) :
      fetch cursor = page → page.length < limit →
      DrainTrace fetch limit cursor [page]
  | step (cursor : Option String) (page : List RetellCall) (r : RetellCall)
      (rest : List (List RetellCall)) :
      fetch cursor = page → page.length = limit → page.getLast? = some r →
      DrainTrace fetch limit (some r.call_id) rest →
      DrainTrace fetch limit cursor (page :: rest)

/-- Validated query parameters of GET /call-history, dashboard.js lines 21
to 25. -/
structure CallHistoryParams where
  limit : Nat
  offset : Nat
  sortBy : String
deriving DecidableEq, Repr

/-- Joi rule for limit: integer between 1 and 100, default 20 when the key
is absent; a value outside the range is a validation error, not clamped. -/
def validLimit : Option Int → Except String Nat
  | none => Except.ok 20
  | some l => if 1 ≤ l ∧ l ≤ 100 then Except.ok l.toNat
              else Except.error ("limit must be between 1 and 100")

/-- Joi rule for offset: integer at least 0, default 0 when absent. -/
def validOffset : Option Int → Except String Nat
  | none => Except.ok 0
  | some o => if 0 ≤ o then Except.ok o.toNat
              else Except.error ("offset must be greater than or equal to 0")

/-- Joi rule for sortBy: one of date, duration, cost, default date. -/
def validSortBy : Option String → Except String String
  | none => Except.ok "date"
  | some s => if s = "date" ∨ s = "duration" ∨ s = "cost" then Except.ok s
              else Except.error ("sortBy must be one of date, duration, cost")

/-- callHistorySchema.validate: first failing key rule wins (Joi abortEarly
default), keys checked in schema order. -/
def validateCallHistory (ql qo : Option Int) (qs : Option String) :
    Except String CallHistoryParams :=
  match validLimit ql with
  | Except.error e => Except.error e
  | Except.ok l =>
    match validOffset qo with
    | Except.error e => Except.error e
    | Except.ok o =>
      match validSortBy qs with
      | Except.error e => Except.error e
      | Except.ok s => Except.ok { limit := l, offset := o, sortBy := s }

/-- Pagination block of the list responses. -/
structure Pagination where
  total : Nat
  limit : Nat
  offset : Nat
  hasMore : Bool
deriving DecidableEq, Repr

/-- Payload of GET /call-history/:agentId. -/
structure CallHistoryResponse where
  calls : List CallRow
  pagination : Pagination
deriving DecidableEq, Repr

/-- Errors a route handler can throw (the two classes this route uses). -/
inductive HandlerError where
  | validation (msg : String)
  | notFound (msg : String)
deriving DecidableEq, Repr

/-- Stable-by-construction insertion of a row into a list sorted in
descending key order; ties and smaller keys keep the incoming row later. -/
def insertDescBy (key : CallRow → Int) (x : CallRow) : List CallRow → List CallRow
  | [] => [x]
  | y :: ys => if key y < key x then x :: y :: ys else y :: insertDescBy key x ys

/-- prisma findMany orderBy desc on an integer key. -/
def sortDescBy (key : CallRow → Int) (l : List CallRow) : List CallRow :=
  l.foldr (insertDescBy key) []

/-- orderBy clause of dashboard.js lines 343 to 355. -/
def sortCalls (sortBy : String) (l : List CallRow) : List CallRow :=
  if sortBy = "duration" then sortDescBy (fun c => c.duration_seconds) l
  else if sortBy = "cost" then sortDescBy (fun c => c.cost) l
  else sortDescBy (fun c => c.start_timestamp) l

/-- GET /call-history/:agentId, dashboard.js lines 316 to 409: validate the
query, check the agent exists (404 with the specific message otherwise),
then page through the calls of that agent with skip and take, and report
total and hasMore as offset + limit < total. -/
def callHistory (db : DB) (agentId : String) (ql qo : Option Int)
    (qs : Option String) : Except HandlerError CallHistoryResponse :=
  match validateCallHistory ql qo qs with
  | Except.error msg => Except.error (HandlerError.validation msg)
  | Except.ok p =>
    if agentId = "" then Except.error (HandlerError.validation ("Agent ID is required"))
    else
      match findAgent db agentId with
      | none => Except.error (HandlerError.notFound
          ("Agent with ID " ++ agentId ++ " not found"))
      | some _ =>
          let matching := db.calls.filter (fun c => decide (c.agent_id = agentId))
          let page := ((sortCalls p.sortBy matching).drop p.offset).take p.limit
          Except.ok
            { calls := page
              pagination :=
                { total := matching.length
                  limit := p.limit
                  offset := p.offset
                  hasMore := decide (p.offset + p.limit < matching.length) } }

/-- Error value reaching the central errorHandler: name, message and
statusCode as set by the AppError subclasses of errorHandler.js, plus the
optional prisma error code. -/
structure AppErrorModel where
  name : String
  message : String
  statusCode : Nat
  code : Option String := none
deriving DecidableEq, Repr

/-- NotFoundError of errorHandler.js lines 270 to 275. -/
def notFoundError (msg : String) : AppErrorModel :=
  { name := "NotFoundError", message := msg, statusCode := 404 }

/-- ValidationError of errorHandler.js lines 249 to 254. -/
def validationError (msg : String) : AppErrorModel :=
  { name := "ValidationError", message := msg, statusCode := 400 }

/-- Rendered HTTP error response: status code and JSON body fields. -/
structure ErrorResponse where
  status : Nat
  error : Bool
  message : String
deriving DecidableEq, Repr

/-- Central errorHandler of errorHandler.js lines 175 to 224: start from the
errors own statusCode (falling back to 500 when unset) and message, then
replace both by a fixed pair keyed on the error class name or prisma code,
and finally hide 500 messages in production. -/
def errorHandler (isProd : Bool) (err : AppErrorModel) : ErrorResponse :=
  let status0 := if err.statusCode ≠ 0 then err.statusCode else 500
  let msg0 := if err.message ≠ "" then err.message else "Internal Server Error"
  let sm :=
    if err.name = "ValidationError" then (400, "Validation Error")
    else if err.name = "UnauthorizedError" then (401, "Unauthorized")
    else if err.name = "ForbiddenError" then (403, "Forbidden")
    else if err.name = "NotFoundError" then (404, "Not Found")
    else if err.code = some "P2002" then (409, "Resource already exists")
    else if err.code = some "P2025" then (404, "Resource not found")
    else (status0, msg0)
  let finalMsg := if isProd ∧ sm.1 = 500 then "Internal Server Error" else sm.2
  { status := sm.1, error := true, message := finalMsg }

/-- Mapping of the handler error classes to the values the errorHandler
receives. -/
def toAppError : HandlerError → AppErrorModel
  | HandlerError.validation msg => validationError msg
  | HandlerError.notFound msg => notFoundError msg

/-- HTTP level result of the call-history route once asyncHandler has routed
a thrown error through the central errorHandler. -/
inductive HttpResult where
  | ok (resp : CallHistoryResponse)
  | err (resp : ErrorResponse)
deriving DecidableEq, Repr

/-- GET /call-history/:agentId as observed on the wire. -/
def callHistoryHttp (isProd : Bool) (db : DB) (agentId : String)
    (ql qo : Option Int) (qs : Option String) : HttpResult :=
  match callHistory db agentId ql qo qs with
  | Except.ok r => HttpResult.ok r
  | Except.error e => HttpResult.err (errorHandler isProd (toAppError e))

/-- Headers read by the auth middleware. -/
structure AuthHeaders where
  authorization : Option String
  xApiKey : Option String
deriving DecidableEq, Repr

/-- Decoded JWT payload fields used by the middleware. -/
structure JwtClaims where
  sub : String
  role : String
deriving DecidableEq, Repr

/-- Outcome of the auth middleware: the 500 configuration error, a pass to
next (with the decoded user when the JWT path succeeded), or a 401. -/
inductive AuthOutcome where
  | serverError
  | authed (user : Option JwtClaims)
  | rejected (status : Nat) (msg : String)
deriving DecidableEq, Repr

/-- JavaScript truthiness of an optional header string. -/
def jsTruthy : Option String → Bool
  | none => false
  | some s => decide (s ≠ "")

/-- JavaScript logical or on optional header strings. -/
def jsOr (a b : Option String) : Option String :=
  if jsTruthy a then a else b

/-- Bearer token extraction of auth.js lines 62 to 66: when the header
starts with the Bearer prefix the rest after the first 7 characters is the
token. Character list operations model startsWith and slice(7). -/
def bearerTokenOf : Option String → Option String
  | some h => if h.data.take 7 = ("Bearer ").data
              then some (String.mk (h.data.drop 7)) else none
  | none => none

/-- authMiddleware of auth.js lines 49 to 102, over the configured API key
and JWT secret and a signature verification oracle (secret and token to
decoded claims). A present bearer token with a configured secret tries the
JWT path first; on verification failure it falls through to the API key
comparison, where the provided key is the x-api-key header when truthy and
otherwise the bearer token itself. -/
def authMiddleware (apiKey jwtSecret : Option String)
    (verify : String → String → Option JwtClaims) (req : AuthHeaders) : AuthOutcome :=
  if ¬ jsTruthy apiKey then AuthOutcome.serverError
  else
    let bearerToken := bearerTokenOf req.authorization
    if ¬ jsTruthy bearerToken ∧ ¬ jsTruthy req.xApiKey then
      AuthOutcome.rejected 401 "API key required"
    else
      let jwtAttempt : Option JwtClaims :=
        match bearerToken, jwtSecret with
        | some t, some sec => if jsTruthy (some t) ∧ jsTruthy (some sec)
                              then verify sec t else none
        | _, _ => none
      match jwtAttempt with
      | some claims => AuthOutcome.authed (some claims)
      | none =>
          let providedKey := jsOr req.xApiKey bearerToken
          if providedKey ≠ apiKey then AuthOutcome.rejected 401 "Invalid credentials"
          else AuthOutcome.authed none

/-- User row of the persistent store (prisma.user), fields touched by the
bootstrap step. -/
structure UserRow where
  email : String
  passwordHash : String
  name : String
  role : String
  status : String
deriving DecidableEq, Repr

/-- ensureSuperAdmin of superadmin.js lines 5 to 40, over the configured
credentials (empty string models an unset variable, matching JavaScript
falsiness) and the bcrypt hash modelled as a function of the password: skip
when unconfigured; if a user with the email exists, promote it to
SUPERADMIN and APPROVED only when its role is not already SUPERADMIN;
otherwise create the SUPERADMIN user. -/
def ensureSuperAdmin (hash : String → String) (email password nm : String)
    (users : List UserRow) : List UserRow :=
  if email = "" ∨ password = "" then users
  else
    match users.find? (fun u => decide (u.email = email)) with
    | some u =>
        if u.role ≠ "SUPERADMIN" then
          users.map (fun v =>
            if v.email = email then { v with role := "SUPERADMIN", status := "APPROVED" } else v)
        else users
    | none =>
        users ++ [{ email := email, passwordHash := hash password, name := nm,
                    role := "SUPERADMIN", status := "APPROVED" }]

/-! Helper lemmas about the sync loops. -/

theorem findAgent_isSome_iff (l : List AgentRow) (id : String) :
    (l.find? (fun a => decide (a.agent_id = id))).isSome = true ↔
      ∃ a ∈ l, a.agent_id = id := by
  induction l with
  | nil => simp
  | cons a t ih =>
      by_cases h : a.agent_id = id
      · simp [List.find?, h]
      · simp [List.find?, h, ih]

theorem processCall_agents (cf : RetellCall → Bool) (s : SyncState) (r : RetellCall) :
    (processCall cf s r).db.agents = s.db.agents := by
  unfold processCall
  by_cases h : callFails cf s.db r = true
  · simp [h]
  · simp only [h]
    cases findCall s.db r.call_id <;> simp

theorem processCall_callFails (cf : RetellCall → Bool) (s : SyncState) (r : RetellCall) :
    callFails cf (processCall cf s r).db = callFails cf s.db := by
  funext x
  unfold callFails findAgent
  rw [processCall_agents]

theorem processCall_errs (cf : RetellCall → Bool) (s : SyncState) (r : RetellCall) :
    (processCall cf s r).errs = s.errs + (if callFails cf s.db r then 1 else 0) := by
  unfold processCall
  by_cases h : callFails cf s.db r = true
  · simp [h]
  · simp only [h]
    cases findCall s.db r.call_id <;> simp [h]

theorem processCall_written_length (cf : RetellCall → Bool) (s : SyncState) (r : RetellCall) :
    (processCall cf s r).written.length + (processCall cf s r).errs
      = s.written.length + s.errs + 1 := by
  unfold processCall
  by_cases h : callFails cf s.db r = true
  · simp [h]; omega
  · simp only [h]
    cases findCall s.db r.call_id <;> simp <;> omega

theorem callPhase_agents (cf : RetellCall → Bool) (l : List RetellCall) :
    ∀ s, (callPhase cf l s).db.agents = s.db.agents := by
  induction l with
  | nil => intro s; rfl
  | cons r t ih =>
      intro s
      show (callPhase cf t (processCall cf s r)).db.agents = s.db.agents
      rw [ih, processCall_agents]

theorem callPhase_errs (cf : RetellCall → Bool) (l : List RetellCall) :
    ∀ s, (callPhase cf l s).errs = s.errs + l.countP (callFails cf s.db) := by
  induction l with
  | nil => intro s; simp [callPhase]
  | cons r t ih =>
      intro s
      show (callPhase cf t (processCall cf s r)).errs = _
      rw [ih, processCall_callFails, processCall_errs, List.countP_cons]
      by_cases h : callFails cf s.db r = true <;> simp [h] <;> omega

theorem callPhase_written_length (cf : RetellCall → Bool) (l : List RetellCall) :
    ∀ s, (callPhase cf l s).written.length + (callPhase cf l s).errs
      = s.written.length + s.errs + l.length := by
  induction l with
  | nil => intro s; simp [callPhase]
  | cons r t ih =>
      intro s
      show (callPhase cf t (processCall cf s r)).written.length
          + (callPhase cf t (processCall cf s r)).errs = _
      rw [ih, processCall_written_length]
      simp [List.length_cons]
      omega

theorem processCall_written_shape (cf : RetellCall → Bool) (s : SyncState)
    (r : RetellCall) :
    ∀ row ∈ (processCall cf s r).written,
      row ∈ s.written ∨ ∃ c u : Nat, row = mapCallFields r c u := by
  intro row hrow
  unfold processCall at hrow
  by_cases h : callFails cf s.db r = true
  · simp [h] at hrow
    exact Or.inl hrow
  · simp only [h] at hrow
    cases hfc : findCall s.db r.call_id with
    | some old =>
        rw [hfc] at hrow
        simp at hrow
        rcases hrow with hmem | hnew
        · exact Or.inl hmem
        · exact Or.inr ⟨old.created_at, s.now, hnew⟩
    | none =>
        rw [hfc] at hrow
        simp at hrow
        rcases hrow with hmem | hnew
        · exact Or.inl hmem
        · exact Or.inr ⟨s.now, s.now, hnew⟩

theorem callPhase_written_shape (cf : RetellCall → Bool) (l : List RetellCall) :
    ∀ s, ∀ row ∈ (callPhase cf l s).written,
      row ∈ s.written ∨ ∃ r ∈ l, ∃ c u : Nat, row = mapCallFields r c u := by
  induction l with
  | nil => intro s row h; exact Or.inl h
  | cons a t ih =>
      intro s row h
      rcases ih (processCall cf s a) row h with hmem | ⟨r, hr, c, u, heq⟩
      · rcases processCall_written_shape cf s a row hmem with hold | ⟨c, u, heq⟩
        · exact Or.inl hold
        · exact Or.inr ⟨a, List.mem_cons_self a t, c, u, heq⟩
      · exact Or.inr ⟨r, List.mem_cons_of_mem a hr, c, u, heq⟩

theorem processCall_written_agent (cf : RetellCall → Bool) (s : SyncState)
    (r : RetellCall)
    (h : ∀ row ∈ s.written, ∃ a ∈ s.db.agents, a.agent_id = row.agent_id) :
    ∀ row ∈ (processCall cf s r).written,
      ∃ a ∈ (processCall cf s r).db.agents, a.agent_id = row.agent_id := by
  intro row hrow
  rw [processCall_agents]
  unfold processCall at hrow
  by_cases hg : callFails cf s.db r = true
  · simp [hg] at hrow
    exact h row hrow
  · have hsome : (findAgent s.db r.agent_id).isSome = true := by
      unfold callFails at hg
      simp at hg
      exact Option.ne_none_iff_isSome.mp hg.2
    obtain ⟨a, ha⟩ := Option.isSome_iff_exists.mp hsome
    have hamem : a ∈ s.db.agents := List.mem_of_find?_eq_some ha
    have haid : a.agent_id = r.agent_id := by
      have := List.find?_some ha
      simpa using this
    simp only [hg] at hrow
    cases hfc : findCall s.db r.call_id with
    | some old =>
        rw [hfc] at hrow
        simp at hrow
        rcases hrow with hmem | hnew
        · exact h row hmem
        · exact ⟨a, hamem, by rw [haid, hnew]; rfl⟩
    | none =>
        rw [hfc] at hrow
        simp at hrow
        rcases hrow with hmem | hnew
        · exact h row hmem
        · exact ⟨a, hamem, by rw [haid, hnew]; rfl⟩

theorem callPhase_written_agent (cf : RetellCall → Bool) (l : List RetellCall) :
    ∀ s, (∀ row ∈ s.written, ∃ a ∈ s.db.agents, a.agent_id = row.agent_id) →
      ∀ row ∈ (callPhase cf l s).written,
        ∃ a ∈ (callPhase cf l s).db.agents, a.agent_id = row.agent_id := by
  induction l with
  | nil =>
      intro s h row hrow
      exact h row hrow
  | cons r t ih =>
      intro s h row hrow
      exact ih (processCall cf s r)
        (fun row2 hrow2 => processCall_written_agent cf s r h row2 hrow2) row hrow

theorem upsertAgent_calls (db : DB) (now : Nat) (id nm : String) :
    (upsertAgent db now id nm).calls = db.calls := by
  unfold upsertAgent
  cases findAgent db id <;> rfl

theorem agentStep_calls (af : String → Bool) (am : String → Option String)
    (p : DB × Nat) (id : String) :
    ((agentStep af am p id).1).calls = p.1.calls := by
  unfold agentStep
  by_cases h : af id = true <;> simp [h, upsertAgent_calls]

theorem agentPhase_calls (af : String → Bool) (am : String → Option String)
    (ids : List String) :
    ∀ p, ((agentPhase af am ids p).1).calls = p.1.calls := by
  induction ids with
  | nil => intro p; rfl
  | cons i t ih =>
      intro p
      show ((agentPhase af am t (agentStep af am p i)).1).calls = p.1.calls
      rw [ih, agentStep_calls]

theorem upsertAgent_exists (db : DB) (now : Nat) (id nm id0 : String)
    (h : (findAgent db id0).isSome = true) :
    (findAgent (upsertAgent db now id nm) id0).isSome = true := by
  unfold findAgent at h ⊢
  obtain ⟨a, hamem, haid⟩ := (findAgent_isSome_iff db.agents id0).mp h
  unfold upsertAgent
  cases hfa : findAgent db id with
  | some u =>
      apply (findAgent_isSome_iff _ id0).mpr
      by_cases hid : a.agent_id = id
      · refine ⟨{ a with agent_name := nm, updated_at := now },
          List.mem_map.mpr ⟨a, hamem, by simp [hid]⟩, haid⟩
      · exact ⟨a, List.mem_map.mpr ⟨a, hamem, by simp [hid]⟩, haid⟩
  | none =>
      apply (findAgent_isSome_iff _ id0).mpr
      exact ⟨a, List.mem_append_left _ hamem, haid⟩

theorem agentStep_exists (af : String → Bool) (am : String → Option String)
    (p : DB × Nat) (id id0 : String)
    (h : (findAgent p.1 id0).isSome = true) :
    (findAgent (agentStep af am p id).1 id0).isSome = true := by
  unfold agentStep
  by_cases hf : af id = true
  · simpa [hf] using h
  · simp only [hf]
    simpa using upsertAgent_exists p.1 p.2 id ((am id).getD ("Agent " ++ id)) id0 h

theorem agentPhase_exists (af : String → Bool) (am : String → Option String)
    (ids : List String) :
    ∀ p id0, (findAgent p.1 id0).isSome = true →
      (findAgent (agentPhase af am ids p).1 id0).isSome = true := by
  induction ids with
  | nil => intro p id0 h; exact h
  | cons i t ih =>
      intro p id0 h
      exact ih (agentStep af am p i) id0 (agentStep_exists af am p i id0 h)

/-! Concrete sample values used by counterexamples and witnesses. -/

/-- Sample external record whose duration_ms field (1000) disagrees with
the span of its timestamps (5000). -/
def sampleCall : RetellCall :=
  { call_id := "call_1", agent_id := "agent_1", start_timestamp := 0,
    end_timestamp := 5000, duration_ms := 1000 }

/-- Sync run of the sample record against an empty store, with no storage
failures, no filter, and an empty agent map. -/
def sampleSync : SyncOutcome :=
  syncCalls (fun _ => none) (fun _ => false) (fun _ => false) none
    [sampleCall] { agents := [], calls := [] } 0

/-! Claim theorems. -/

/-- C1: counterexample. For the claim that every stored Call has its derived
duration field equal to end timestamp minus start timestamp: after syncing a
record with duration_ms 1000 but timestamps spanning 5000 milliseconds, the
stored row has duration_ms 1000 and duration_seconds 1, neither of which
matches end minus start, because the sync copies duration_ms from the record
instead of deriving it from the timestamps. -/
theorem c1_duration_counterexample :
    ∃ c ∈ sampleSync.db.calls,
      c.duration_ms ≠ c.end_timestamp - c.start_timestamp
      ∧ c.duration_seconds * 1000 ≠ c.end_timestamp - c.start_timestamp := by
  decide

/-- C1: amended claim. For every call record stored by the sync routine, the
stored duration_ms is copied unchanged from the external record and the
stored duration_seconds equals the floor of duration_ms over 1000; the
stored start and end timestamps are likewise copies, so the stored duration
equals end minus start exactly when the external record already satisfied
that, and is not derived from the timestamps. -/
theorem c1_duration_amended (am : String → Option String) (af : String → Bool)
    (cf : RetellCall → Bool) (filt : Option String) (calls : List RetellCall)
    (db : DB) (now : Nat) :
    ∀ row ∈ (syncCalls am af cf filt calls db now).written,
      row.duration_seconds = Int.fdiv row.duration_ms 1000
      ∧ ∃ r ∈ calls, row.call_id = r.call_id ∧ row.duration_ms = r.duration_ms
          ∧ row.start_timestamp = r.start_timestamp
          ∧ row.end_timestamp = r.end_timestamp := by
  intro row hrow
  by_cases hc : calls.isEmpty
  · simp [syncCalls, hc] at hrow
  · simp only [syncCalls, hc, Bool.false_eq_true, if_false] at hrow
    rcases callPhase_written_shape cf (filterByAgent filt calls) _ row hrow with
      h0 | ⟨r, hr, c, u, heq⟩
    · simp at h0
    · have hrc : r ∈ calls := by
        cases filt with
        | none => exact hr
        | some aid => exact (List.mem_filter.mp hr).1
      subst heq
      exact ⟨rfl, r, hrc, rfl, rfl, rfl, rfl⟩

/-- C1: witness for the amended claim at the sample run. -/
theorem c1_duration_amended_witness :
    (mapCallFields sampleCall 1 1).duration_seconds
      = Int.fdiv (mapCallFields sampleCall 1 1).duration_ms 1000
    ∧ ∃ r ∈ [sampleCall],
        (mapCallFields sampleCall 1 1).call_id = r.call_id
        ∧ (mapCallFields sampleCall 1 1).duration_ms = r.duration_ms
        ∧ (mapCallFields sampleCall 1 1).start_timestamp = r.start_timestamp
        ∧ (mapCallFields sampleCall 1 1).end_timestamp = r.end_timestamp := by
  exact c1_duration_amended (fun _ => none) (fun _ => false) (fun _ => false) none
    [sampleCall] { agents := [], calls := [] } 0 (mapCallFields sampleCall 1 1)
    (by decide)

/-- C2: counterexample. For the claim that a sync over an empty fetched
window responds with callsUpdated 0 and errors 0 present in the body: the
early return emits a body whose callsUpdated and errors keys are absent, so
neither equals 0. -/
theorem c2_zero_calls_counterexample :
    (syncCalls (fun _ => none) (fun _ => false) (fun _ => false) none []
        { agents := [], calls := [] } 0).response.success = true
    ∧ (syncCalls (fun _ => none) (fun _ => false) (fun _ => false) none []
        { agents := [], calls := [] } 0).response.callsSynced = 0
    ∧ (syncCalls (fun _ => none) (fun _ => false) (fun _ => false) none []
        { agents := [], calls := [] } 0).response.callsUpdated = none
    ∧ (syncCalls (fun _ => none) (fun _ => false) (fun _ => false) none []
        { agents := [], calls := [] } 0).response.errors = none
    ∧ (syncCalls (fun _ => none) (fun _ => false) (fun _ => false) none []
        { agents := [], calls := [] } 0).response.callsUpdated ≠ some 0
    ∧ (syncCalls (fun _ => none) (fun _ => false) (fun _ => false) none []
        { agents := [], calls := [] } 0).response.errors ≠ some 0 := by
  decide

/-- C2: amended claim. For every sync invocation in which the external
source returns zero call records, the endpoint responds success with
callsSynced 0 and an explanatory message, leaves the store untouched and
writes nothing, but the body carries no callsUpdated and no errors fields
(they are absent rather than present with value 0). -/
theorem c2_zero_calls_amended (am : String → Option String) (af : String → Bool)
    (cf : RetellCall → Bool) (filt : Option String) (db : DB) (now : Nat) :
    syncCalls am af cf filt [] db now =
      { db := db
        response := { success := true
                      message := "No calls found in the specified date range"
                      callsSynced := 0, callsUpdated := none, errors := none }
        written := [] } := by
  rfl

/-- C3: in every sync run the agent loop finishes before the call loop
starts and the two phases are separated: the agent phase never writes a Call
row, the call phase never writes an Agent row, and every Call row written by
the sync references an Agent present in the store (the agent set is already
final at the time of each write). -/
theorem c3_agents_before_calls (am : String → Option String) (af : String → Bool)
    (cf : RetellCall → Bool) (filt : Option String) (calls : List RetellCall)
    (db : DB) (now : Nat) :
    (∀ ids p, ((agentPhase af am ids p).1).calls = p.1.calls)
    ∧ (∀ l s, (callPhase cf l s).db.agents = s.db.agents)
    ∧ (∀ row ∈ (syncCalls am af cf filt calls db now).written,
        ∃ a ∈ (syncCalls am af cf filt calls db now).db.agents,
          a.agent_id = row.agent_id) := by
  refine ⟨fun ids p => agentPhase_calls af am ids p,
    fun l s => callPhase_agents cf l s, ?_⟩
  intro row hrow
  by_cases hc : calls.isEmpty
  · simp [syncCalls, hc] at hrow
  · simp only [syncCalls, hc, Bool.false_eq_true, if_false] at hrow ⊢
    exact callPhase_written_agent cf (filterByAgent filt calls) _
      (by intro row2 h2; simp at h2) row hrow

/-- C3: witness at the sample run, a Call row written by the sync together
with the Agent row it references. -/
theorem c3_agents_before_calls_witness :
    ∃ a ∈ sampleSync.db.agents,
      a.agent_id = (mapCallFields sampleCall 1 1).agent_id := by
  exact (c3_agents_before_calls (fun _ => none) (fun _ => false) (fun _ => false)
    none [sampleCall] { agents := [], calls := [] } 0).2.2
    (mapCallFields sampleCall 1 1) (by decide)

/-- C10: during a sync run with a nonempty fetched window, the errors
counter of the summary counts exactly the filtered call records whose Call
write fails (storage failure or missing agent), so a failing Agent upsert
never increments it directly; every filtered record is attempted (written
rows plus errors partition the filtered records); and when every referenced
agent already exists in the store before the run, the errors counter equals
the count of storage-failing call records alone, whatever the agent upsert
failures were. -/
theorem c10_agent_failure_isolated (am : String → Option String)
    (af : String → Bool) (cf : RetellCall → Bool) (filt : Option String)
    (calls : List RetellCall) (db : DB) (now : Nat) (h : calls ≠ []) :
    (syncCalls am af cf filt calls db now).response.errors
      = some ((filterByAgent filt calls).countP
          (callFails cf (agentPhase af am
            (dedupFirst ((filterByAgent filt calls).map (fun c => c.agent_id)))
            (db, now)).1))
    ∧ (syncCalls am af cf filt calls db now).written.length
        + (filterByAgent filt calls).countP
            (callFails cf (agentPhase af am
              (dedupFirst ((filterByAgent filt calls).map (fun c => c.agent_id)))
              (db, now)).1)
      = (filterByAgent filt calls).length
    ∧ ((∀ r ∈ filterByAgent filt calls, (findAgent db r.agent_id).isSome = true) →
        (syncCalls am af cf filt calls db now).response.errors
          = some ((filterByAgent filt calls).countP cf)) := by
  have hc : calls.isEmpty = false := by cases calls <;> simp_all
  have herrs := callPhase_errs cf (filterByAgent filt calls)
    { db := (agentPhase af am
        (dedupFirst ((filterByAgent filt calls).map (fun c => c.agent_id)))
        (db, now)).1
      now := (agentPhase af am
        (dedupFirst ((filterByAgent filt calls).map (fun c => c.agent_id)))
        (db, now)).2
      synced := 0, updated := 0, errs := 0, written := [] }
  have hlen := callPhase_written_length cf (filterByAgent filt calls)
    { db := (agentPhase af am
        (dedupFirst ((filterByAgent filt calls).map (fun c => c.agent_id)))
        (db, now)).1
      now := (agentPhase af am
        (dedupFirst ((filterByAgent filt calls).map (fun c => c.agent_id)))
        (db, now)).2
      synced := 0, updated := 0, errs := 0, written := [] }
  simp only [syncCalls, hc, Bool.false_eq_true, if_false]
  simp only [List.length_nil, Nat.zero_add] at herrs hlen
  refine ⟨by rw [herrs], by rw [herrs] at hlen; omega, ?_⟩
  intro hall
  rw [herrs]
  congr 1
  apply List.countP_congr
  intro r hr
  have hsome := agentPhase_exists af am
    (dedupFirst ((filterByAgent filt calls).map (fun c => c.agent_id)))
    (db, now) r.agent_id (hall r hr)
  unfold callFails
  obtain ⟨a, ha⟩ := Option.isSome_iff_exists.mp hsome
  simp [ha]

/-- Agent row present before a sync run, used by the C10 witness. -/
def sampleAgent : AgentRow :=
  { agent_id := "agent_1", agent_name := "Agent One", status := "ACTIVE",
    created_at := 0, updated_at := 0 }

/-- C10: witness. With the referenced agent already in the store, every
agent upsert failing, and no storage failure on calls, the sync reports
zero errors. -/
theorem c10_agent_failure_isolated_witness :
    (syncCalls (fun _ => none) (fun _ => true) (fun _ => false) none [sampleCall]
        { agents := [sampleAgent], calls := [] } 0).response.errors
      = some ((filterByAgent none [sampleCall]).countP (fun _ => false)) := by
  exact (c10_agent_failure_isolated (fun _ => none) (fun _ => true)
    (fun _ => false) none [sampleCall] { agents := [sampleAgent], calls := [] } 0
    (by decide)).2.2 (by decide)

/-- Soundness of the drain loop against the trace predicate, generalized
over the starting cursor for the induction on fuel. -/
theorem getAllCallsInRange_trace (fetch : Option String → List RetellCall)
    (limit : Nat) (hlim : 0 < limit)
    (hpages : ∀ c, (fetch c).length ≤ limit) :
    ∀ fuel cursor res, getAllCallsInRange fetch limit cursor fuel = some res →
      ∃ pages, DrainTrace fetch limit cursor pages ∧ res = pages.join := by
  intro fuel
  induction fuel with
  | zero =>
      intro cursor res h
      simp [getAllCallsInRange] at h
  | succ n ih =>
      intro cursor res h
      unfold getAllCallsInRange at h
      by_cases hcond : (fetch cursor).length = limit ∧ 0 < (fetch cursor).length
      · rw [if_pos hcond] at h
        cases hrec : getAllCallsInRange fetch limit (nextCursor (fetch cursor)) n with
        | none => rw [hrec] at h; cases h
        | some rest =>
            rw [hrec] at h
            obtain ⟨pages, htr, hjoin⟩ := ih (nextCursor (fetch cursor)) rest hrec
            cases hl : (fetch cursor).getLast? with
            | none =>
                have hnil : fetch cursor = [] := List.getLast?_eq_none_iff.mp hl
                rw [hnil] at hcond
                simp at hcond
            | some r =>
                have hnc : nextCursor (fetch cursor) = some r.call_id := by
                  unfold nextCursor
                  rw [hl]
                rw [hnc] at htr
                refine ⟨fetch cursor :: pages,
                  DrainTrace.step cursor (fetch cursor) r pages rfl hcond.1 hl htr, ?_⟩
                cases h
                rw [hjoin]
                simp
      · rw [if_neg hcond] at h
        cases h
        have hlt : (fetch cursor).length < limit := by
          rcases Nat.lt_or_ge (fetch cursor).length limit with hlt | hge
          · exact hlt
          · have heq : (fetch cursor).length = limit :=
              Nat.le_antisymm (hpages cursor) hge
            exact absurd ⟨heq, by omega⟩ hcond
        exact ⟨[fetch cursor], DrainTrace.final cursor (fetch cursor) rfl hlt,
          by simp⟩

/-- C4: for every single-page fetch function honoring the page limit
contract (no page longer than the limit, positive limit), a completed drain
starting from the null cursor is described exactly by a trace: pages
threaded by the last call identifier of each previous page, every non final
page of exactly limit records, stopping at the first page shorter than the
limit, with the returned list the concatenation of all pages in order. -/
theorem c4_drain_pages (fetch : Option String → List RetellCall)
    (limit fuel : Nat) (res : List RetellCall) (hlim : 0 < limit)
    (hpages : ∀ c, (fetch c).length ≤ limit)
    (hrun : getAllCallsInRange fetch limit none fuel = some res) :
    ∃ pages, DrainTrace fetch limit none pages ∧ res = pages.join := by
  exact getAllCallsInRange_trace fetch limit hlim hpages fuel none res hrun

/-- Records of the two-page drain demonstration. -/
def pageRecA : RetellCall :=
  { call_id := "ra", agent_id := "g", start_timestamp := 0,
    end_timestamp := 0, duration_ms := 0 }

/-- Second record of the first demonstration page. -/
def pageRecB : RetellCall :=
  { call_id := "rb", agent_id := "g", start_timestamp := 0,
    end_timestamp := 0, duration_ms := 0 }

/-- Sole record of the final demonstration page. -/
def pageRecC : RetellCall :=
  { call_id := "rc", agent_id := "g", start_timestamp := 0,
    end_timestamp := 0, duration_ms := 0 }

/-- Demonstration fetch: a full first page of two records, then a short
final page reached through the cursor rb. -/
def demoFetch : Option String → List RetellCall
  | none => [pageRecA, pageRecB]
  | some s => if s = "rb" then [pageRecC] else []

/-- C4: witness at the demonstration fetch with page limit 2. -/
theorem c4_drain_pages_witness :
    ∃ pages, DrainTrace demoFetch 2 none pages
      ∧ [pageRecA, pageRecB, pageRecC] = pages.join := by
  exact c4_drain_pages demoFetch 2 3 [pageRecA, pageRecB, pageRecC]
    (by decide)
    (by
      intro c
      cases c with
      | none => decide
      | some s =>
          show (if s = "rb" then [pageRecC] else []).length ≤ 2
          by_cases hs : s = "rb" <;> simp [hs])
    (by decide)

/-- C5: counterexample. A request carrying only a bearer token that fails
signature verification, with no x-api-key header at all, is authenticated
rather than rejected when the token happens to equal the configured static
key, because the fallback compares the bearer token itself against the key. -/
theorem c5_auth_counterexample :
    authMiddleware (some "k") (some "s") (fun _ _ => none)
        { authorization := some ("Bearer k"), xApiKey := none }
      = AuthOutcome.authed none := by
  decide

/-- C5: amended claim. With the service key configured, a JWT secret
configured, a nonempty bearer token whose signature verification fails, and
no x-api-key header, the middleware rejects the request with 401 unless the
bearer token itself equals the configured static key, in which case the
fallback authenticates the request. -/
theorem c5_auth_amended (apiKey secret : String)
    (verify : String → String → Option JwtClaims) (req : AuthHeaders)
    (tok : String) (hk : apiKey ≠ "") (hs : secret ≠ "")
    (hb : bearerTokenOf req.authorization = some tok) (ht : tok ≠ "")
    (hx : req.xApiKey = none) (hv : verify secret tok = none) :
    authMiddleware (some apiKey) (some secret) verify req
      = if tok = apiKey then AuthOutcome.authed none
        else AuthOutcome.rejected 401 "Invalid credentials" := by
  unfold authMiddleware
  rw [hb, hx]
  by_cases htk : tok = apiKey
  · subst htk
    simp [jsTruthy, jsOr, hk, hs, ht, hv]
  · simp [jsTruthy, jsOr, hk, hs, ht, hv, htk]

/-- C5: witness for the amended claim, a failing bearer token distinct from
the static key with no x-api-key header, rejected with 401. -/
theorem c5_auth_amended_witness :
    authMiddleware (some "k") (some "s") (fun _ _ => none)
        { authorization := some ("Bearer t"), xApiKey := none }
      = AuthOutcome.rejected 401 "Invalid credentials" := by
  have h := c5_auth_amended "k" "s" (fun _ _ => none)
    { authorization := some ("Bearer t"), xApiKey := none } "t"
    (by decide) (by decide) (by decide) (by decide) rfl rfl
  rw [if_neg (by decide)] at h
  exact h

/-- C6: counterexample. A call-history request for an agent absent from the
store receives status 404, but the body message is exactly Not Found, not
the claimed text naming the identifier, because the central error handler
replaces the message of every NotFoundError. -/
theorem c6_not_found_counterexample :
    callHistoryHttp false { agents := [], calls := [] } "agent_x" none none none
      = HttpResult.err { status := 404, error := true, message := "Not Found" }
    ∧ "Not Found" ≠ "Agent with ID agent_x not found" := by
  exact ⟨by decide, by decide⟩

/-- C6: amended claim. For every call-history request with a valid query, a
nonempty agent identifier absent from the store, the handler throws a
NotFoundError whose message is exactly the text Agent with ID, identifier,
not found; the rendered HTTP response has status 404 but its message field
is exactly Not Found, the error handler having replaced the specific text. -/
theorem c6_not_found_amended (isProd : Bool) (db : DB) (agentId : String)
    (ql qo : Option Int) (qs : Option String) (p : CallHistoryParams)
    (hv : validateCallHistory ql qo qs = Except.ok p)
    (hid : agentId ≠ "") (hmiss : findAgent db agentId = none) :
    callHistory db agentId ql qo qs
      = Except.error (HandlerError.notFound
          ("Agent with ID " ++ agentId ++ " not found"))
    ∧ callHistoryHttp isProd db agentId ql qo qs
      = HttpResult.err { status := 404, error := true, message := "Not Found" } := by
  have h1 : callHistory db agentId ql qo qs
      = Except.error (HandlerError.notFound
          ("Agent with ID " ++ agentId ++ " not found")) := by
    unfold callHistory
    rw [hv]
    dsimp only
    rw [if_neg hid, hmiss]
  refine ⟨h1, ?_⟩
  unfold callHistoryHttp
  rw [h1]
  simp [errorHandler, toAppError, notFoundError]

/-- C6: witness at an empty store and the identifier agent_x. -/
theorem c6_not_found_amended_witness :
    callHistory { agents := [], calls := [] } "agent_x" none none none
      = Except.error (HandlerError.notFound
          ("Agent with ID " ++ "agent_x" ++ " not found"))
    ∧ callHistoryHttp true { agents := [], calls := [] } "agent_x" none none none
      = HttpResult.err { status := 404, error := true, message := "Not Found" } := by
  exact c6_not_found_amended true { agents := [], calls := [] } "agent_x"
    none none none { limit := 20, offset := 0, sortBy := "date" }
    rfl (by decide) rfl

/-- C7: every successful paginated call-history response returns at most
limit records, reports as total the count of stored calls matching the
agent filter, and sets hasMore exactly to offset plus limit strictly less
than that total. -/
theorem c7_pagination_bounds (db : DB) (agentId : String) (ql qo : Option Int)
    (qs : Option String) (resp : CallHistoryResponse)
    (h : callHistory db agentId ql qo qs = Except.ok resp) :
    resp.calls.length ≤ resp.pagination.limit
    ∧ resp.pagination.total
        = (db.calls.filter (fun c => decide (c.agent_id = agentId))).length
    ∧ resp.pagination.hasMore
        = decide (resp.pagination.offset + resp.pagination.limit
            < resp.pagination.total) := by
  unfold callHistory at h
  cases hvv : validateCallHistory ql qo qs with
  | error msg => rw [hvv] at h; cases h
  | ok p =>
      rw [hvv] at h
      dsimp only at h
      by_cases hid : agentId = ""
      · rw [if_pos hid] at h; cases h
      · rw [if_neg hid] at h
        cases hfa : findAgent db agentId with
        | none => rw [hfa] at h; cases h
        | some a =>
            rw [hfa] at h
            cases h
            exact ⟨List.length_take_le _ _, rfl, rfl⟩

/-- Stored call row used by the pagination witness. -/
def storedRow (cid : String) (ts : Int) : CallRow :=
  { call_id := cid, agent_id := "agent_1", caller_info := none,
    start_timestamp := ts, end_timestamp := ts, duration_ms := 0,
    duration_seconds := 0, transcript := none, call_status := "ended",
    disconnection_reason := none, cost := 0, call_summary := none,
    user_sentiment := none, call_successful := false, recording_url := none,
    created_at := 0, updated_at := 0 }

/-- Store with one agent and three of its calls. -/
def pagedDb : DB :=
  { agents := [sampleAgent],
    calls := [storedRow "x1" 3, storedRow "x2" 2, storedRow "x3" 1] }

/-- C7: witness, a page of two out of three calls with hasMore true. -/
theorem c7_pagination_bounds_witness :
    ({ calls := [storedRow "x1" 3, storedRow "x2" 2],
       pagination := { total := 3, limit := 2, offset := 0, hasMore := true } }
        : CallHistoryResponse).calls.length
      ≤ ({ calls := [storedRow "x1" 3, storedRow "x2" 2],
           pagination := { total := 3, limit := 2, offset := 0, hasMore := true } }
            : CallHistoryResponse).pagination.limit
    ∧ ({ calls := [storedRow "x1" 3, storedRow "x2" 2],
         pagination := { total := 3, limit := 2, offset := 0, hasMore := true } }
          : CallHistoryResponse).pagination.total
        = (pagedDb.calls.filter (fun c => decide (c.agent_id = "agent_1"))).length
    ∧ ({ calls := [storedRow "x1" 3, storedRow "x2" 2],
         pagination := { total := 3, limit := 2, offset := 0, hasMore := true } }
          : CallHistoryResponse).pagination.hasMore
        = decide (0 + 2 < 3) := by
  exact c7_pagination_bounds pagedDb "agent_1" (some 2) (some 0) none
    { calls := [storedRow "x1" 3, storedRow "x2" 2],
      pagination := { total := 3, limit := 2, offset := 0, hasMore := true } }
    rfl

/-- C8: counterexample. A request with limit 101 against an existing agent
is rejected with a validation error instead of being served with the limit
clamped into range. -/
theorem c8_limit_counterexample :
    callHistory { agents := [sampleAgent], calls := [] } "agent_1"
        (some 101) none none
      = Except.error (HandlerError.validation
          ("limit must be between 1 and 100")) := by
  rfl

/-- C8: amended claim. The limit parameter defaults to 20 and offset to 0
when absent, but a limit outside 1 to 100 (or a negative offset) fails
validation: the request is rejected with a 400 validation error, it is not
served with a clamped value. -/
theorem c8_limit_amended :
    (validateCallHistory none none none
        = Except.ok { limit := 20, offset := 0, sortBy := "date" })
    ∧ (∀ l : Int, l < 1 ∨ 100 < l →
        ∀ (db : DB) (agentId : String) (qo : Option Int) (qs : Option String),
          callHistory db agentId (some l) qo qs
            = Except.error (HandlerError.validation
                ("limit must be between 1 and 100")))
    ∧ (∀ o : Int, o < 0 →
        validOffset (some o)
          = Except.error ("offset must be greater than or equal to 0")) := by
  refine ⟨rfl, ?_, ?_⟩
  · intro l hl db agentId qo qs
    have hvl : validLimit (some l)
        = Except.error ("limit must be between 1 and 100") := by
      dsimp only [validLimit]
      rw [if_neg (by omega)]
    unfold callHistory validateCallHistory
    rw [hvl]
  · intro o ho
    dsimp only [validOffset]
    rw [if_neg (by omega)]

/-- C8: witness for the amended claim at limit 0 (below the range). -/
theorem c8_limit_amended_witness :
    callHistory { agents := [], calls := [] } "agent_9" (some 0) none none
      = Except.error (HandlerError.validation
          ("limit must be between 1 and 100")) := by
  exact c8_limit_amended.2.1 0 (by decide) { agents := [], calls := [] }
    "agent_9" none none

/-! Helper lemmas about user stores for the bootstrap claim. -/

theorem userFind?_append_none (l1 l2 : List UserRow) (p : UserRow → Bool)
    (h : l1.find? p = none) : (l1 ++ l2).find? p = l2.find? p := by
  induction l1 with
  | nil => rfl
  | cons a t ih =>
      cases hpa : p a with
      | true =>
          rw [List.find?_cons_of_pos t hpa] at h
          cases h
      | false =>
          rw [List.find?_cons_of_neg t (by simp [hpa])] at h
          rw [List.cons_append, List.find?_cons_of_neg _ (by simp [hpa])]
          exact ih h

theorem userFind?_map_comm (f : UserRow → UserRow) (p : UserRow → Bool)
    (hpres : ∀ v, p (f v) = p v) (l : List UserRow) :
    (l.map f).find? p = (l.find? p).map f := by
  induction l with
  | nil => rfl
  | cons a t ih =>
      cases hpa : p a with
      | true =>
          rw [List.map_cons, List.find?_cons_of_pos _ (by rw [hpres]; exact hpa),
            List.find?_cons_of_pos t hpa]
          rfl
      | false =>
          rw [List.map_cons, List.find?_cons_of_neg _ (by simp [hpres, hpa]),
            List.find?_cons_of_neg t (by simp [hpa]), ih]

/-- C9: running the superadmin bootstrap twice with the same configured
credentials equals running it once; after one run exactly one user with the
configured email exists and exactly one of those is a SUPERADMIN; and when
the store already holds a SUPERADMIN under that email the run changes
nothing (it only promotes a non SUPERADMIN account). The store is assumed
to honor the unique email constraint (at most one row per email). -/
theorem c9_bootstrap_idempotent (hash : String → String)
    (email password nm : String) (users : List UserRow)
    (he : email ≠ "") (hp : password ≠ "")
    (huniq : users.countP (fun u => decide (u.email = email)) ≤ 1) :
    ensureSuperAdmin hash email password nm
        (ensureSuperAdmin hash email password nm users)
      = ensureSuperAdmin hash email password nm users
    ∧ (ensureSuperAdmin hash email password nm users).countP
        (fun u => decide (u.email = email)) = 1
    ∧ (ensureSuperAdmin hash email password nm users).countP
        (fun u => decide (u.email = email) && decide (u.role = "SUPERADMIN")) = 1
    ∧ (∀ u, users.find? (fun v => decide (v.email = email)) = some u →
        u.role = "SUPERADMIN" →
        ensureSuperAdmin hash email password nm users = users) := by
  have hcfg : ¬(email = "" ∨ password = "") := fun h => h.elim he hp
  cases hfind : users.find? (fun v => decide (v.email = email)) with
  | none =>
      have hE : ensureSuperAdmin hash email password nm users
          = users ++ [{ email := email, passwordHash := hash password,
                        name := nm, role := "SUPERADMIN", status := "APPROVED" }] := by
        unfold ensureSuperAdmin
        rw [if_neg hcfg, hfind]
      have hzero : users.countP (fun u => decide (u.email = email)) = 0 := by
        apply List.countP_eq_zero.mpr
        intro a ha
        simpa using List.find?_eq_none.mp hfind a ha
      refine ⟨?_, ?_, ?_, ?_⟩
      · rw [hE]
        unfold ensureSuperAdmin
        rw [if_neg hcfg, userFind?_append_none users _ _ hfind]
        simp [List.find?]
      · rw [hE, List.countP_append, hzero]
        simp
      · rw [hE, List.countP_append]
        have hq : users.countP
            (fun u => decide (u.email = email) && decide (u.role = "SUPERADMIN")) = 0 := by
          apply List.countP_eq_zero.mpr
          intro a ha
          have h2 := List.find?_eq_none.mp hfind a ha
          simp at h2 ⊢
          intro h3
          exact absurd h3 h2
        rw [hq]
        simp
      · intro u hu
        cases hu
  | some u =>
      have hpu : u.email = email := by
        simpa using List.find?_some hfind
      have humem : u ∈ users := List.mem_of_find?_eq_some hfind
      have hone : users.countP (fun v => decide (v.email = email)) = 1 := by
        have hpos : 0 < users.countP (fun v => decide (v.email = email)) :=
          List.countP_pos_iff.mpr ⟨u, humem, by simp [hpu]⟩
        omega
      by_cases hrole : u.role = "SUPERADMIN"
      · have hE : ensureSuperAdmin hash email password nm users = users := by
          unfold ensureSuperAdmin
          rw [if_neg hcfg, hfind]
          simp [hrole]
        refine ⟨by rw [hE, hE], by rw [hE]; exact hone, ?_, fun u2 hu2 _ => hE⟩
        rw [hE]
        have hle : users.countP
            (fun v => decide (v.email = email) && decide (v.role = "SUPERADMIN"))
            ≤ users.countP (fun v => decide (v.email = email)) := by
          apply List.countP_mono_left
          intro a ha h2
          simp at h2 ⊢
          exact h2.1
        have hqpos : 0 < users.countP
            (fun v => decide (v.email = email) && decide (v.role = "SUPERADMIN")) :=
          List.countP_pos_iff.mpr ⟨u, humem, by simp [hpu, hrole]⟩
        omega
      · have hE : ensureSuperAdmin hash email password nm users
            = users.map (fun v =>
                if v.email = email
                then { v with role := "SUPERADMIN", status := "APPROVED" } else v) := by
          unfold ensureSuperAdmin
          rw [if_neg hcfg, hfind]
          simp [hrole]
        have hpres : ∀ v : UserRow,
            (fun w : UserRow => decide (w.email = email))
              ((fun v : UserRow => if v.email = email
                then { v with role := "SUPERADMIN", status := "APPROVED" } else v) v)
            = decide (v.email = email) := by
          intro v
          by_cases hv : v.email = email <;> simp [hv]
        have hcnt1 : (users.map (fun v =>
            if v.email = email
            then { v with role := "SUPERADMIN", status := "APPROVED" } else v)).countP
              (fun u => decide (u.email = email)) = 1 := by
          rw [List.countP_map]
          calc users.countP _ = users.countP (fun v => decide (v.email = email)) := by
                apply List.countP_congr
                intro a ha
                by_cases hv : a.email = email <;> simp [Function.comp, hv]
            _ = 1 := hone
        refine ⟨?_, by rw [hE]; exact hcnt1, ?_, ?_⟩
        · rw [hE]
          unfold ensureSuperAdmin
          rw [if_neg hcfg, userFind?_map_comm _ _ hpres users, hfind]
          simp [hpu]
        · rw [hE, List.countP_map]
          calc users.countP _ = users.countP (fun v => decide (v.email = email)) := by
                apply List.countP_congr
                intro a ha
                by_cases hv : a.email = email <;> simp [Function.comp, hv]
            _ = 1 := hone
        · intro u2 hu2 hrole2
          cases hu2
          exact absurd hrole2 hrole

/-- C9: witness, bootstrapping twice over a store holding one non
SUPERADMIN user under the configured email. -/
theorem c9_bootstrap_idempotent_witness :
    ensureSuperAdmin (fun s => s ++ "#") "root@example.com" "pw" "Root"
        (ensureSuperAdmin (fun s => s ++ "#") "root@example.com" "pw" "Root"
          [{ email := "root@example.com", passwordHash := "h0", name := "Bob",
             role := "USER", status := "PENDING" }])
      = ensureSuperAdmin (fun s => s ++ "#") "root@example.com" "pw" "Root"
          [{ email := "root@example.com", passwordHash := "h0", name := "Bob",
             role := "USER", status := "PENDING" }]
    ∧ (ensureSuperAdmin (fun s => s ++ "#") "root@example.com" "pw" "Root"
          [{ email := "root@example.com", passwordHash := "h0", name := "Bob",
             role := "USER", status := "PENDING" }]).countP
        (fun u => decide (u.email = "root@example.com")) = 1
    ∧ (ensureSuperAdmin (fun s => s ++ "#") "root@example.com" "pw" "Root"
          [{ email := "root@example.com", passwordHash := "h0", name := "Bob",
             role := "USER", status := "PENDING" }]).countP
        (fun u => decide (u.email = "root@example.com")
          && decide (u.role = "SUPERADMIN")) = 1 := by
  have h := c9_bootstrap_idempotent (fun s => s ++ "#") "root@example.com" "pw"
    "Root" [{ email := "root@example.com", passwordHash := "h0", name := "Bob",
              role := "USER", status := "PENDING" }]
    (by decide) (by decide) (by decide)
  exact ⟨h.1, h.2.1, h.2.2.1⟩

end AiVox
